import Mathlib

/-!
Shallow embedding of `HW4/wall_follower.py`: angle utilities, the
nearest-object searches over a 360-entry range scan, the five behavior
primitives, the shared robot state and its two sensor-update handlers.
Numeric values are modelled as exact rationals; the constant π used by the
external `angles` module is passed around as an explicit parameter `pi`.
Velocity commands are recorded as the list of published `Twist` messages.
-/

/-- Modelled from the spec: `angles.rectify_angle_pi` (the `angles` module is
imported by the source but is not among the source files).  Normalizes an
angle into the interval (-pi, pi] by adding or subtracting multiples of
2·pi, written in closed form. -/
def rectify_angle_pi (pi a : ℚ) : ℚ :=
  a - 2 * pi * ⌈(a - pi) / (2 * pi)⌉

/-- Modelled from the spec: `angles.degrees_to_radians` (the `angles` module
is imported by the source but is not among the source files).  Converts an
integer degree index to radians. -/
def degrees_to_radians (pi : ℚ) (d : ℕ) : ℚ :=
  (d : ℚ) * pi / 180

/-- Python's built-in `min` over a list of numbers; `none` on the empty
list, where Python raises `ValueError`. -/
def pyMin : List ℚ → Option ℚ
  | [] => none
  | x :: xs => some (xs.foldl min x)

/-- Python's `list.index`: the index of the first occurrence of `v`.  (The
source only applies it to values known to occur in the list.) -/
def pyIndex (v : ℚ) : List ℚ → ℕ
  | [] => 0
  | x :: xs => if x = v then 0 else pyIndex v xs + 1

/-- Strictly positive entries of a range array, mirroring the generator
`i for i in array if i > 0.0`. -/
def posFilter (l : List ℚ) : List ℚ :=
  l.filter (fun i => decide (0 < i))

/-- `findObj360` from the source: the minimum strictly positive reading of
the whole array together with the index of its first occurrence; `none`
when no entry is strictly positive (Python raises). -/
def findObj360 (l : List ℚ) : Option (ℕ × ℚ) :=
  match pyMin (posFilter l) with
  | none => none
  | some temp => some (pyIndex temp l, temp)

/-- `findObjFront` from the source: minima of the strictly positive
readings of the slices `array[0:45]` and `array[315:360]`; the smaller of
the two wins, ties going to the front slice; `none` when either slice has
no strictly positive entry (Python raises on whichever `min` is empty). -/
def findObjFront (l : List ℚ) : Option (ℕ × ℚ) :=
  match pyMin (posFilter (l.take 45)), pyMin (posFilter ((l.drop 315).take 45)) with
  | some temp, some temp2 =>
    if temp ≤ temp2 then
      some (pyIndex temp (l.take 45), temp)
    else
      some (pyIndex temp2 ((l.drop 315).take 45) + 315, temp2)
  | _, _ => none

/-- A `geometry_msgs/Twist` restricted to the two components the source
ever writes; a fresh `Twist()` is all zero. -/
structure Twist where
  linear_x : ℚ := 0
  angular_z : ℚ := 0
  deriving DecidableEq, Repr

/-- Twist message with both components zero, Python's `Twist()`. -/
def zeroTwist : Twist := {}

/-- Local state of the `Turn` class: the stored rotation-direction flag,
the target angle computed at construction, and the completion flag. -/
structure Turn where
  clockwise : Bool
  target_angle : ℚ
  done : Bool
  deriving DecidableEq, Repr

/-- Local state of the `Drive` class. -/
structure Drive where
  init_x : ℚ
  init_y : ℚ
  forward : Bool
  target_distance : ℚ
  done : Bool
  deriving DecidableEq, Repr

/-- Local state of the `TurnToObject` class. -/
structure TurnToObject where
  done : Bool
  deriving DecidableEq, Repr

/-- Local state of the `FollowObject` class. -/
structure FollowObject where
  lower_bound : ℚ
  upper_bound : ℚ
  angle_err_lim : ℚ
  clockwise : Bool
  target_angle : ℚ
  done : Bool
  deriving DecidableEq, Repr

/-- Local state of the `WallFollow` class. -/
structure WallFollow where
  lower_bound : ℚ
  upper_bound : ℚ
  angle_err_lim : ℚ
  clockwise : Bool
  target_angle : ℚ
  done : Bool
  deriving DecidableEq, Repr

/-- The five behavior kinds that can be installed as the active behavior. -/
inductive Behavior where
  | turn : Turn → Behavior
  | drive : Drive → Behavior
  | turnToObject : TurnToObject → Behavior
  | followObject : FollowObject → Behavior
  | wallFollow : WallFollow → Behavior
  deriving DecidableEq, Repr

/-- Shared robot state, the fields of `TurtlebotState`.  `current_action`
is the reference to the currently installed behavior (`None` before the
sequencer installs one). -/
structure TurtlebotState where
  angle : ℚ
  x : ℚ
  y : ℚ
  ready : Bool
  current_action : Option Behavior
  meter : Bool
  closest_obj_ang : ℚ
  closest_obj_front : ℕ × ℚ
  closest_obj_front_ang : ℚ
  closest_obj_front_dist : ℚ
  deriving DecidableEq, Repr

/-- State as left by `TurtlebotState.__init__` before any sensor update:
`ready`, `meter` false and no current action.  The source leaves `angle`,
`x`, `y` as `None` and the four scan-derived fields unset until the first
handler call; they carry placeholder zeros here — only the flag and
action fields of this state are consulted by the theorems below. -/
def initState : TurtlebotState :=
  { angle := 0, x := 0, y := 0, ready := false, current_action := none,
    meter := false, closest_obj_ang := 0, closest_obj_front := (0, 0),
    closest_obj_front_ang := 0, closest_obj_front_dist := 0 }

/-- `Turn.__init__(state, angle)`: it reads only `state.angle`, passed here
directly as `stateAngle`. -/
def Turn.init (pi stateAngle angle : ℚ) : Turn :=
  { clockwise := if angle ≥ 0 then false else true,
    target_angle := rectify_angle_pi pi (stateAngle + angle),
    done := false }

/-- `Turn.act`: returns the updated local state and the published command. -/
def Turn.act (t : Turn) (s : TurtlebotState) : Turn × List Twist :=
  let error := |t.target_angle - s.angle|
  if error > 0.02 then
    (t, [{ angular_z := if t.clockwise then -0.2 else 0.2 }])
  else
    ({ t with done := true }, [zeroTwist])

/-- `Drive.__init__(state, distance)`. -/
def Drive.init (stateX stateY distance : ℚ) : Drive :=
  { init_x := stateX, init_y := stateY,
    forward := if distance ≥ 0 then true else false,
    target_distance := |distance|,
    done := false }

/-- `Drive.act`.  Modelled from the spec: `euclidian_distance` lives in the
external `distances` module, absent from the source files; it is kept
abstract as the parameter `dist`, applied to the same four arguments as in
the source. -/
def Drive.act (dist : ℚ → ℚ → ℚ → ℚ → ℚ) (d : Drive) (s : TurtlebotState) :
    Drive × List Twist :=
  let error := |d.target_distance - dist d.init_x s.x d.init_y s.y|
  if error > 0.02 then
    (d, [{ linear_x := if d.forward then 0.2 else -0.2 }])
  else
    ({ d with done := true }, [zeroTwist])

/-- `TurnToObject.act`: installs a fresh `Turn` aimed at the full-sweep
nearest-object bearing as the state's current action and reports itself
done.  It publishes nothing (only log output). -/
def TurnToObject.act (pi : ℚ) (o : TurnToObject) (s : TurtlebotState) :
    TurnToObject × TurtlebotState × List Twist :=
  let goal := rectify_angle_pi pi s.closest_obj_ang
  ({ o with done := true },
   { s with current_action := some (Behavior.turn (Turn.init pi s.angle goal)) },
   [])

/-- `FollowObject.__init__(state)`: captures direction and target heading
from the forward-cone bearing at construction time. -/
def FollowObject.init (pi stateAngle closestFrontAng : ℚ) : FollowObject :=
  let goal_angle := rectify_angle_pi pi closestFrontAng
  { lower_bound := 0.4, upper_bound := 0.6, angle_err_lim := 0.04,
    clockwise := if goal_angle ≥ 0 then false else true,
    target_angle := rectify_angle_pi pi (stateAngle + goal_angle),
    done := false }

/-- `FollowObject.act`: one combined angular/linear command per step, plus
an extra explicit zero command when both tolerances hold; `done` is set
unconditionally. -/
def FollowObject.act (f : FollowObject) (s : TurtlebotState) :
    FollowObject × List Twist :=
  let error := |f.target_angle - s.angle|
  let cmd : Twist :=
    { angular_z :=
        if error > f.angle_err_lim then (if f.clockwise then -0.4 else 0.4) else 0,
      linear_x :=
        if s.closest_obj_front_dist > f.upper_bound ∨
            s.closest_obj_front_dist < f.lower_bound then
          (if s.closest_obj_front_dist - 0.5 > 0 then 0.15 else -0.15)
        else 0 }
  if error ≤ f.angle_err_lim ∧ (s.closest_obj_front_dist ≤ f.upper_bound ∧
      s.closest_obj_front_dist ≥ f.lower_bound) then
    ({ f with done := true }, [cmd, zeroTwist])
  else
    ({ f with done := true }, [cmd])

/-- `WallFollow.__init__(state)`: same capture as `FollowObject` but with
the [0.9, 1.1] distance band. -/
def WallFollow.init (pi stateAngle closestFrontAng : ℚ) : WallFollow :=
  let goal_angle := rectify_angle_pi pi closestFrontAng
  { lower_bound := 0.9, upper_bound := 1.1, angle_err_lim := 0.04,
    clockwise := if goal_angle ≥ 0 then false else true,
    target_angle := rectify_angle_pi pi (stateAngle + goal_angle),
    done := false }

/-- `WallFollow.act`: same control law as `FollowObject.act`, and when both
tolerances hold it additionally sets the mission-level `meter` flag on the
shared state; the (possibly updated) shared state is the second result. -/
def WallFollow.act (w : WallFollow) (s : TurtlebotState) :
    WallFollow × TurtlebotState × List Twist :=
  let error := |w.target_angle - s.angle|
  let cmd : Twist :=
    { angular_z :=
        if error > w.angle_err_lim then (if w.clockwise then -0.4 else 0.4) else 0,
      linear_x :=
        if s.closest_obj_front_dist > w.upper_bound ∨
            s.closest_obj_front_dist < w.lower_bound then
          (if s.closest_obj_front_dist - 0.5 > 0 then 0.15 else -0.15)
        else 0 }
  if error ≤ w.angle_err_lim ∧ (s.closest_obj_front_dist ≤ w.upper_bound ∧
      s.closest_obj_front_dist ≥ w.lower_bound) then
    ({ w with done := true }, { s with meter := true }, [cmd, zeroTwist])
  else
    ({ w with done := true }, s, [cmd])

/-- One step of the installed behavior.  First component: the acting
object's updated local state (the source mutates it in place).  Second:
the shared state — its `current_action` field records only explicit
reassignments of the behavior reference, which in the source occur solely
in `TurnToObject.act`.  Third: the published commands. -/
def stepAction (pi : ℚ) (dist : ℚ → ℚ → ℚ → ℚ → ℚ) (a : Behavior)
    (s : TurtlebotState) : Behavior × TurtlebotState × List Twist :=
  match a with
  | .turn t => (.turn (Turn.act t s).1, s, (Turn.act t s).2)
  | .drive d => (.drive (Drive.act dist d s).1, s, (Drive.act dist d s).2)
  | .turnToObject o =>
    (.turnToObject (TurnToObject.act pi o s).1, (TurnToObject.act pi o s).2.1,
     (TurnToObject.act pi o s).2.2)
  | .followObject f =>
    (.followObject (FollowObject.act f s).1, s, (FollowObject.act f s).2)
  | .wallFollow w =>
    (.wallFollow (WallFollow.act w s).1, (WallFollow.act w s).2.1,
     (WallFollow.act w s).2.2)

/-- Pose message as consumed by `update_odom`.  Modelled from the spec: the
quaternion-to-yaw conversion `yaw_from_odom` calls the external
`tf.transformations` library, so the message is represented by the
extracted yaw together with the planar position. -/
structure OdomMsg where
  yaw : ℚ
  x : ℚ
  y : ℚ
  deriving DecidableEq, Repr

/-- `TurtlebotState.update_odom`: stores yaw and position and flags
readiness. -/
def TurtlebotState.update_odom (s : TurtlebotState) (m : OdomMsg) :
    TurtlebotState :=
  { s with angle := m.yaw, x := m.x, y := m.y, ready := true }

/-- `TurtlebotState.update_scan` on a range array.  A raised exception in
either search aborts the handler at that point, leaving the remaining
fields as they were; the Boolean result records whether the handler ran to
completion. -/
def TurtlebotState.update_scan (pi : ℚ) (s : TurtlebotState)
    (ranges : List ℚ) : TurtlebotState × Bool :=
  match findObj360 ranges with
  | none => (s, false)
  | some r =>
    let s1 := { s with closest_obj_ang := degrees_to_radians pi r.1 }
    match findObjFront ranges with
    | none => (s1, false)
    | some rf =>
      ({ s1 with closest_obj_front := rf,
                 closest_obj_front_ang := degrees_to_radians pi rf.1,
                 closest_obj_front_dist := rf.2,
                 ready := true }, true)

/-! Concrete scan arrays used as test inputs: an all-ones scan, and a scan
whose only object return sits at bearing 315 (inside the searched back
slice of the forward cone, but outside the front slice). -/

def onesScan : List ℚ := List.replicate 360 1

def backOnlyScan : List ℚ := List.replicate 315 0 ++ 1 :: List.replicate 44 0

/-- Index set searched by `findObjFront` on a 360-entry scan: the forward
cone [0,45) ∪ [315,360). -/
def frontRange (j : ℕ) : Prop :=
  j < 45 ∨ (315 ≤ j ∧ j < 360)

instance (j : ℕ) : Decidable (frontRange j) := by
  unfold frontRange; infer_instance

/-! Helper lemmas about `pyMin`, `pyIndex` and `posFilter`. -/

theorem foldl_min_le_init (xs : List ℚ) (a : ℚ) : xs.foldl min a ≤ a := by
  induction xs generalizing a with
  | nil => exact le_refl a
  | cons x xs ih =>
    exact le_trans (ih (min a x)) (min_le_left a x)

theorem foldl_min_le_mem (xs : List ℚ) : ∀ (a x : ℚ), x ∈ xs →
    xs.foldl min a ≤ x := by
  induction xs with
  | nil => intro a x hx; cases hx
  | cons y ys ih =>
    intro a x hx
    rcases List.mem_cons.1 hx with rfl | h
    · exact le_trans (foldl_min_le_init ys (min a x)) (min_le_right a x)
    · exact ih (min a y) x h

theorem foldl_min_eq_init_or_mem (xs : List ℚ) (a : ℚ) :
    xs.foldl min a = a ∨ xs.foldl min a ∈ xs := by
  induction xs generalizing a with
  | nil => exact Or.inl rfl
  | cons y ys ih =>
    rcases ih (min a y) with h | h
    · rcases min_choice a y with h1 | h1
      · exact Or.inl (by rw [List.foldl_cons, h, h1])
      · exact Or.inr (by rw [List.foldl_cons, h, h1]; exact List.mem_cons_self y ys)
    · exact Or.inr (List.mem_cons_of_mem y h)

theorem pyMin_eq_none_iff (l : List ℚ) : pyMin l = none ↔ l = [] := by
  cases l <;> simp [pyMin]

theorem pyMin_mem (l : List ℚ) (v : ℚ) (h : pyMin l = some v) : v ∈ l := by
  cases l with
  | nil => exact absurd h (by simp [pyMin])
  | cons x xs =>
    have hv : xs.foldl min x = v := by simpa [pyMin] using h
    rcases foldl_min_eq_init_or_mem xs x with h' | h'
    · have hxv : x = v := by rw [← hv, h']
      rw [← hxv]; exact List.mem_cons_self x xs
    · rw [hv] at h'; exact List.mem_cons_of_mem x h'

theorem pyMin_le (l : List ℚ) (v : ℚ) (h : pyMin l = some v) (x : ℚ)
    (hx : x ∈ l) : v ≤ x := by
  cases l with
  | nil => cases hx
  | cons y ys =>
    have hv : ys.foldl min y = v := by simpa [pyMin] using h
    rcases List.mem_cons.1 hx with rfl | hx'
    · rw [← hv]; exact foldl_min_le_init ys x
    · rw [← hv]; exact foldl_min_le_mem ys y x hx'

theorem pyMin_isSome_of_ne_nil (l : List ℚ) (h : l ≠ []) :
    ∃ v, pyMin l = some v := by
  cases l with
  | nil => exact absurd rfl h
  | cons x xs => exact ⟨xs.foldl min x, rfl⟩

theorem pyIndex_lt_length (v : ℚ) (l : List ℚ) (h : v ∈ l) :
    pyIndex v l < l.length := by
  induction l with
  | nil => cases h
  | cons x xs ih =>
    by_cases hx : x = v
    · simp [pyIndex, hx]
    · have hmem : v ∈ xs := by
        rcases List.mem_cons.1 h with rfl | h'
        · exact absurd rfl hx
        · exact h'
      simp only [pyIndex, hx, if_false, List.length_cons]
      exact Nat.succ_lt_succ (ih hmem)

theorem pyIndex_get (v : ℚ) (l : List ℚ) (h : v ∈ l)
    (hlt : pyIndex v l < l.length) : l.get ⟨pyIndex v l, hlt⟩ = v := by
  induction l with
  | nil => cases h
  | cons x xs ih =>
    by_cases hx : x = v
    · simp only [pyIndex, hx, if_true] at hlt ⊢
      simpa using hx
    · have hmem : v ∈ xs := by
        rcases List.mem_cons.1 h with rfl | h'
        · exact absurd rfl hx
        · exact h'
      have hlt' : pyIndex v xs < xs.length := pyIndex_lt_length v xs hmem
      simp only [pyIndex, hx, if_false] at hlt ⊢
      simpa using ih hmem hlt'

theorem pyIndex_min (v : ℚ) (l : List ℚ) (j : ℕ) (hj : j < l.length)
    (hlt : j < pyIndex v l) : l.get ⟨j, hj⟩ ≠ v := by
  induction l generalizing j with
  | nil => cases hj
  | cons x xs ih =>
    by_cases hx : x = v
    · rw [pyIndex, if_pos hx] at hlt; cases hlt
    · rw [pyIndex, if_neg hx] at hlt
      cases j with
      | zero => simpa using hx
      | succ j =>
        have hj' : j < xs.length := Nat.lt_of_succ_lt_succ hj
        have hlt' : j < pyIndex v xs := Nat.lt_of_succ_lt_succ hlt
        simpa using ih j hj' hlt'

theorem mem_posFilter (l : List ℚ) (x : ℚ) :
    x ∈ posFilter l ↔ x ∈ l ∧ 0 < x := by
  simp [posFilter, List.mem_filter]

theorem posFilter_eq_nil_iff (l : List ℚ) :
    posFilter l = [] ↔ ∀ x ∈ l, ¬ 0 < x := by
  simp [posFilter, List.filter_eq_nil_iff]

/-! Claim C1: the stored rotation-direction flag of `Turn`. -/

/-- C1 (counterexample): for the non-negative target delta 1 the constructed
`Turn` stores `clockwise = false`, refuting the claim that the flag is true
exactly when the delta is non-negative. -/
theorem Turn_init_clockwise_counterexample :
    (1 : ℚ) ≥ 0 ∧ (Turn.init 3 0 1).clockwise = false := by
  constructor
  · norm_num
  · rfl

/-- C1 (amended): for every `Turn` constructed with target delta `angle`,
the stored flag satisfies `clockwise = true` exactly when the delta is
negative — the opposite polarity of the claimed `targetDelta >= 0`. -/
theorem Turn_init_clockwise_flag (pi stateAngle angle : ℚ) :
    (Turn.init pi stateAngle angle).clockwise = true ↔ angle < 0 := by
  unfold Turn.init
  by_cases h : angle ≥ 0
  · simp [h, not_lt.2 h]
  · simp [h, lt_of_not_ge h]

/-! Claim C2: when the readiness flag becomes true. -/

/-- C2 (counterexample): starting from the freshly constructed state, a
single pose update alone — no scan update ever received — already flips
`ready` to true, refuting the claim that both feeds are required. -/
theorem ready_single_feed_counterexample :
    initState.ready = false ∧
    (initState.update_odom { yaw := 0, x := 0, y := 0 }).ready = true :=
  ⟨rfl, rfl⟩

/-- C2 (amended): `ready` starts false and becomes true as soon as the
first update from either feed is processed: any pose update sets it, and
any scan update that runs to completion sets it. -/
theorem ready_first_update :
    initState.ready = false ∧
    (∀ (s : TurtlebotState) (m : OdomMsg), (s.update_odom m).ready = true) ∧
    (∀ (pi : ℚ) (s : TurtlebotState) (ranges : List ℚ) (s2 : TurtlebotState),
      TurtlebotState.update_scan pi s ranges = (s2, true) → s2.ready = true) := by
  refine ⟨rfl, fun s m => rfl, fun pi s ranges s2 h => ?_⟩
  unfold TurtlebotState.update_scan at h
  cases h360 : findObj360 ranges with
  | none => rw [h360] at h; cases h
  | some r =>
    rw [h360] at h
    cases hfront : findObjFront ranges with
    | none => rw [hfront] at h; simp at h
    | some rf =>
      rw [hfront] at h
      simp only [Prod.mk.injEq] at h
      rw [← h.1]

/-! Claim C6: `FollowObject.act` always reports done. -/

/-- C6: every step of `FollowObject` sets `done = true`, for every local
state and every shared robot state, whatever the angular error and the
forward-object distance are. -/
theorem FollowObject_act_always_done (f : FollowObject) (s : TurtlebotState) :
    ((FollowObject.act f s).1).done = true := by
  simp only [FollowObject.act]
  repeat' split
  all_goals rfl

/-! Claim C8: who replaces the active-behavior reference. -/

/-- C8 (counterexample): stepping a `TurnToObject` behavior replaces the
shared state's behavior reference with a freshly built `Turn` — a behavior
itself installs a behavior of a different kind, refuting the claim that
only the sequencer (or a self-re-arm of `WallFollow`/`FollowObject`)
replaces the reference. -/
theorem TurnToObject_installs_turn_counterexample :
    ({ initState with
        current_action := some (.turnToObject ⟨false⟩) } : TurtlebotState).current_action
      = some (.turnToObject ⟨false⟩) ∧
    (stepAction 3 (fun _ _ _ _ => 0) (.turnToObject ⟨false⟩)
        { initState with current_action := some (.turnToObject ⟨false⟩) }).2.1.current_action
      = some (.turn { clockwise := false, target_angle := 0, done := false }) := by
  constructor
  · rfl
  · have h0 : rectify_angle_pi 3 (0 : ℚ) = 0 := by norm_num [rectify_angle_pi]
    show (TurnToObject.act 3 ⟨false⟩
        { initState with current_action := some (.turnToObject ⟨false⟩) }).2.1.current_action = _
    simp only [TurnToObject.act, initState]
    rw [h0]
    simp [Turn.init, h0]

/-- C8 (amended): a behavior step never replaces the active-behavior
reference, except `TurnToObject`, whose step installs a fresh `Turn` aimed
at the rectified full-sweep bearing; in particular `WallFollow` and
`FollowObject` steps leave the reference untouched (their re-arming is
done by the sequencer in `main`, not by the behaviors). -/
theorem current_action_replacement (pi : ℚ) (dist : ℚ → ℚ → ℚ → ℚ → ℚ)
    (a : Behavior) (s : TurtlebotState) :
    ((stepAction pi dist a s).2.1).current_action =
      match a with
      | .turnToObject _ =>
        some (.turn (Turn.init pi s.angle (rectify_angle_pi pi s.closest_obj_ang)))
      | _ => s.current_action := by
  cases a with
  | turn t => rfl
  | drive d => rfl
  | turnToObject o => rfl
  | followObject f => rfl
  | wallFollow w =>
    show (WallFollow.act w s).2.1.current_action = s.current_action
    simp only [WallFollow.act]
    repeat' split
    all_goals rfl

/-! Claim C4: the `Turn` step. -/

/-- C4: on a step of a not-yet-done `Turn`, writing `error` for
`|target_angle - heading|`: the step reports done exactly when
`error ≤ 0.02`; when `error > 0.02` it publishes an angular command of
magnitude 0.2 signed by the stored direction flag with zero linear
velocity and leaves `done` false; otherwise it publishes the all-zero
command and sets `done` true. -/
theorem Turn_act_step_spec (t : Turn) (s : TurtlebotState)
    (h : t.done = false) :
    (((Turn.act t s).1).done = true ↔ |t.target_angle - s.angle| ≤ 0.02) ∧
    (0.02 < |t.target_angle - s.angle| →
      ((Turn.act t s).1).done = false ∧
      (Turn.act t s).2 =
        [{ linear_x := 0, angular_z := if t.clockwise then -0.2 else 0.2 }]) ∧
    (|t.target_angle - s.angle| ≤ 0.02 →
      ((Turn.act t s).1).done = true ∧ (Turn.act t s).2 = [zeroTwist]) := by
  by_cases hgt : |t.target_angle - s.angle| > 0.02
  · have hact : Turn.act t s =
        (t, [{ linear_x := 0, angular_z := if t.clockwise then -0.2 else 0.2 }]) := by
      simp only [Turn.act]
      rw [if_pos hgt]
    refine ⟨?_, fun _ => ?_, fun hle => absurd hle (not_le.2 hgt)⟩
    · rw [hact]
      simp [h, not_le.2 hgt]
    · rw [hact]
      exact ⟨h, rfl⟩
  · have hle : |t.target_angle - s.angle| ≤ 0.02 := not_lt.1 hgt
    have hact : Turn.act t s = ({ t with done := true }, [zeroTwist]) := by
      simp only [Turn.act]
      rw [if_neg hgt]
    refine ⟨?_, fun hgt2 => absurd hgt2 hgt, fun _ => ?_⟩
    · rw [hact]
      simp [hle]
    · rw [hact]
      exact ⟨rfl, rfl⟩

/-- C4 (witness): a `Turn` at target angle 1 with heading 0 is not done and
publishes the counterclockwise command. -/
theorem Turn_act_step_spec_witness :
    ((Turn.act ⟨false, 1, false⟩ initState).1).done = false ∧
    (Turn.act ⟨false, 1, false⟩ initState).2 =
      [{ linear_x := 0, angular_z := 0.2 }] :=
  (Turn_act_step_spec ⟨false, 1, false⟩ initState rfl).2.1 (by norm_num [initState])

/-! Claim C5: the unwrapped error computation of `Turn.act`. -/

/-- C5: for any value of the angle constant greater than 3 there are a
heading and a target angle, both inside (-pi, pi], whose wrapped angular
distance is at most 0.02 rad while the unwrapped error
`|target - heading|` exceeds 0.02, so a `Turn` step at that heading does
not set `done` and still commands a rotation (heading at +pi, target near
-pi). -/
theorem Turn_wrap_blindspot (pi : ℚ) (hpi : 3 < pi) :
    ∃ heading target : ℚ,
      (-pi < heading ∧ heading ≤ pi) ∧ (-pi < target ∧ target ≤ pi) ∧
      |rectify_angle_pi pi (target - heading)| ≤ 0.02 ∧
      0.02 < |target - heading| ∧
      ∀ (b : Bool) (s : TurtlebotState), s.angle = heading →
        ((Turn.act ⟨b, target, false⟩ s).1.done = false ∧
          ∀ tw ∈ (Turn.act ⟨b, target, false⟩ s).2, tw.angular_z ≠ 0) := by
  have hp0 : (0 : ℚ) < pi := by linarith
  have h2p : (0 : ℚ) < 2 * pi := by linarith
  refine ⟨pi, -pi + 0.01, ⟨by linarith, le_refl pi⟩, ⟨by linarith, by linarith⟩,
    ?_, ?_, ?_⟩
  · have hceil : ⌈(-pi + 0.01 - pi - pi) / (2 * pi)⌉ = (-1 : ℤ) := by
      rw [Int.ceil_eq_iff]
      constructor
      · rw [lt_div_iff h2p]
        push_cast
        linarith
      · rw [div_le_iff h2p]
        push_cast
        linarith
    unfold rectify_angle_pi
    rw [hceil]
    have heq : -pi + 0.01 - pi - 2 * pi * ((-1 : ℤ) : ℚ) = 0.01 := by
      push_cast
      ring
    rw [heq]
    rw [abs_of_nonneg (by norm_num)]
    norm_num
  · have hneg : -pi + 0.01 - pi < 0 := by linarith
    rw [abs_of_neg hneg]
    linarith
  · intro b s hs
    have herr : |(-pi + 0.01) - s.angle| > 0.02 := by
      rw [hs]
      have hneg : -pi + 0.01 - pi < 0 := by linarith
      rw [abs_of_neg hneg]
      linarith
    have hact : Turn.act ⟨b, -pi + 0.01, false⟩ s =
        (⟨b, -pi + 0.01, false⟩,
          [{ linear_x := 0, angular_z := if b then -0.2 else 0.2 }]) := by
      simp only [Turn.act]
      rw [if_pos herr]
    constructor
    · rw [hact]
    · intro tw htw
      rw [hact] at htw
      simp only [List.mem_singleton] at htw
      rw [htw]
      cases b
      · norm_num
      · norm_num

/-- C5 (witness): instance of the wrap blind spot at the concrete constant
value 4. -/
theorem Turn_wrap_blindspot_witness :
    ∃ heading target : ℚ,
      (-4 < heading ∧ heading ≤ 4) ∧ (-4 < target ∧ target ≤ 4) ∧
      |rectify_angle_pi 4 (target - heading)| ≤ 0.02 ∧
      0.02 < |target - heading| ∧
      ∀ (b : Bool) (s : TurtlebotState), s.angle = heading →
        ((Turn.act ⟨b, target, false⟩ s).1.done = false ∧
          ∀ tw ∈ (Turn.act ⟨b, target, false⟩ s).2, tw.angular_z ≠ 0) :=
  Turn_wrap_blindspot 4 (by norm_num)

/-! Claim C7: when `WallFollow.act` sets the mission flag. -/

theorem WallFollow_init_angle_err_lim (pi a c : ℚ) :
    (WallFollow.init pi a c).angle_err_lim = 0.04 := rfl

theorem WallFollow_init_lower_bound (pi a c : ℚ) :
    (WallFollow.init pi a c).lower_bound = 0.9 := rfl

theorem WallFollow_init_upper_bound (pi a c : ℚ) :
    (WallFollow.init pi a c).upper_bound = 1.1 := rfl

/-- C7: a `WallFollow` step sets the mission-level `meter` flag to true
exactly when on that tick both the angular error is at most 0.04 and the
forward-object distance is within [0.9, 1.1]; otherwise the flag keeps its
previous value. -/
theorem WallFollow_act_goalReached_iff (pi stateAngle closestFrontAng : ℚ)
    (s : TurtlebotState) :
    ((WallFollow.init pi stateAngle closestFrontAng).act s).2.1.meter =
      if |(WallFollow.init pi stateAngle closestFrontAng).target_angle - s.angle| ≤ 0.04 ∧
          (s.closest_obj_front_dist ≤ 1.1 ∧ s.closest_obj_front_dist ≥ 0.9) then
        true
      else s.meter := by
  by_cases hc : |(WallFollow.init pi stateAngle closestFrontAng).target_angle - s.angle| ≤ 0.04 ∧
      (s.closest_obj_front_dist ≤ 1.1 ∧ s.closest_obj_front_dist ≥ 0.9)
  · rw [if_pos hc]
    simp only [WallFollow.act, WallFollow_init_angle_err_lim,
      WallFollow_init_lower_bound, WallFollow_init_upper_bound]
    rw [if_pos hc]
  · rw [if_neg hc]
    simp only [WallFollow.act, WallFollow_init_angle_err_lim,
      WallFollow_init_lower_bound, WallFollow_init_upper_bound]
    rw [if_neg hc]

/-! Destructuring lemmas for the two searches, and index transfer between
a list and its two searched slices. -/

theorem findObj360_none_of (l : List ℚ) (h : pyMin (posFilter l) = none) :
    findObj360 l = none := by
  unfold findObj360
  rw [h]

theorem findObj360_some_of (l : List ℚ) (v : ℚ)
    (h : pyMin (posFilter l) = some v) :
    findObj360 l = some (pyIndex v l, v) := by
  unfold findObj360
  rw [h]

theorem findObjFront_none_left (l : List ℚ)
    (h : pyMin (posFilter (l.take 45)) = none) : findObjFront l = none := by
  unfold findObjFront
  rw [h]

theorem findObjFront_none_right (l : List ℚ)
    (h : pyMin (posFilter ((l.drop 315).take 45)) = none) :
    findObjFront l = none := by
  unfold findObjFront
  rw [h]
  cases hx : pyMin (posFilter (l.take 45)) <;> rfl

theorem findObjFront_some_some (l : List ℚ) (t t2 : ℚ)
    (h1 : pyMin (posFilter (l.take 45)) = some t)
    (h2 : pyMin (posFilter ((l.drop 315).take 45)) = some t2) :
    findObjFront l =
      if t ≤ t2 then some (pyIndex t (l.take 45), t)
      else some (pyIndex t2 ((l.drop 315).take 45) + 315, t2) := by
  unfold findObjFront
  rw [h1, h2]

theorem get_take_eq (l : List ℚ) (n j : ℕ) (hj : j < l.length)
    (h1 : j < (l.take n).length) :
    (l.take n).get ⟨j, h1⟩ = l.get ⟨j, hj⟩ := by
  simp [List.get_eq_getElem, List.getElem_take]

theorem get_drop_take_eq (l : List ℚ) (j : ℕ)
    (h1 : j < ((l.drop 315).take 45).length) (hj : 315 + j < l.length) :
    ((l.drop 315).take 45).get ⟨j, h1⟩ = l.get ⟨315 + j, hj⟩ := by
  simp [List.get_eq_getElem, List.getElem_take, List.getElem_drop]

theorem mem_take_of (l : List ℚ) (n j : ℕ) (hj : j < l.length) (hjn : j < n) :
    l.get ⟨j, hj⟩ ∈ l.take n := by
  have h1 : j < (l.take n).length := by
    rw [List.length_take]
    exact lt_min hjn hj
  rw [← get_take_eq l n j hj h1]
  exact List.get_mem _ _ _

theorem mem_drop_take_of (l : List ℚ) (j : ℕ) (hj : j < l.length)
    (h315 : 315 ≤ j) (h360 : j < 360) :
    l.get ⟨j, hj⟩ ∈ (l.drop 315).take 45 := by
  obtain ⟨k, rfl⟩ : ∃ k, j = 315 + k := ⟨j - 315, by omega⟩
  have h1 : k < ((l.drop 315).take 45).length := by
    rw [List.length_take, List.length_drop]
    omega
  rw [← get_drop_take_eq l k h1 hj]
  exact List.get_mem _ _ _


theorem pyMin_replicate (n : ℕ) (h : n ≠ 0) (a : ℚ) :
    pyMin (List.replicate n a) = some a := by
  cases n with
  | zero => exact absurd rfl h
  | succ n =>
    have hstep : pyMin (List.replicate (n + 1) a) =
        some ((List.replicate n a).foldl min a) := rfl
    rw [hstep]
    congr 1
    rcases foldl_min_eq_init_or_mem (List.replicate n a) a with h' | h'
    · exact h'
    · exact (List.mem_replicate.1 h').2

theorem posFilter_replicate_one (n : ℕ) :
    posFilter (List.replicate n (1 : ℚ)) = List.replicate n 1 := by
  simp [posFilter, List.filter_replicate]

theorem take45_onesScan : onesScan.take 45 = List.replicate 45 1 := by
  unfold onesScan
  rw [List.take_replicate]
  congr 1

theorem dropTake_onesScan : (onesScan.drop 315).take 45 = List.replicate 45 1 := by
  unfold onesScan
  rw [List.drop_replicate, List.take_replicate]
  congr 1

theorem findObj360_onesScan : findObj360 onesScan = some (0, 1) := by
  have h : pyMin (posFilter onesScan) = some 1 := by
    unfold onesScan
    rw [posFilter_replicate_one]
    exact pyMin_replicate 360 (by norm_num) 1
  rw [findObj360_some_of onesScan 1 h]
  unfold onesScan
  rw [show List.replicate 360 (1 : ℚ) = 1 :: List.replicate 359 1 from rfl]
  simp [pyIndex]

theorem findObjFront_onesScan : findObjFront onesScan = some (0, 1) := by
  have h1 : pyMin (posFilter (onesScan.take 45)) = some 1 := by
    rw [take45_onesScan, posFilter_replicate_one]
    exact pyMin_replicate 45 (by norm_num) 1
  have h2 : pyMin (posFilter ((onesScan.drop 315).take 45)) = some 1 := by
    rw [dropTake_onesScan, posFilter_replicate_one]
    exact pyMin_replicate 45 (by norm_num) 1
  rw [findObjFront_some_some onesScan 1 1 h1 h2, if_pos (le_refl (1 : ℚ))]
  rw [take45_onesScan]
  rw [show List.replicate 45 (1 : ℚ) = 1 :: List.replicate 44 1 from rfl]
  simp [pyIndex]

theorem update_scan_onesScan (pi : ℚ) (s : TurtlebotState) :
    TurtlebotState.update_scan pi s onesScan =
      ({ s with closest_obj_ang := degrees_to_radians pi 0,
                closest_obj_front := (0, 1),
                closest_obj_front_ang := degrees_to_radians pi 0,
                closest_obj_front_dist := 1, ready := true }, true) := by
  unfold TurtlebotState.update_scan
  rw [findObj360_onesScan, findObjFront_onesScan]

theorem take45_backOnlyScan : backOnlyScan.take 45 = List.replicate 45 0 := by
  unfold backOnlyScan
  rw [List.take_append_of_le_length (by rw [List.length_replicate]; omega),
    List.take_replicate]
  congr 1

theorem backOnlyScan_length : backOnlyScan.length = 360 := by
  unfold backOnlyScan
  rw [List.length_append, List.length_replicate, List.length_cons,
    List.length_replicate]

/-! Claim C3: specification of the two nearest-point searches. -/

/-- C3 (counterexample): the scan whose only positive return is at index
315 has a strictly positive entry inside the searched forward-cone range,
yet `findObjFront` fails, refuting the claim that the search errors exactly
when no positive reading exists anywhere in the searched range. -/
theorem findObjFront_partial_range_counterexample :
    (∃ j, frontRange j ∧ ∃ hj : j < backOnlyScan.length,
      0 < backOnlyScan.get ⟨j, hj⟩) ∧
    findObjFront backOnlyScan = none := by
  constructor
  · have hj : (315 : ℕ) < backOnlyScan.length := by
      rw [backOnlyScan_length]
      omega
    refine ⟨315, Or.inr ⟨le_refl 315, by rw [backOnlyScan_length] at hj; omega⟩, hj, ?_⟩
    have hget : backOnlyScan.get ⟨315, hj⟩ = 1 := by
      unfold backOnlyScan at hj ⊢
      rw [List.get_eq_getElem]
      rw [List.getElem_append_right (by rw [List.length_replicate])]
      simp only [List.length_replicate, Nat.sub_self, List.getElem_cons_zero]
    rw [hget]
    norm_num
  · apply findObjFront_none_left
    rw [pyMin_eq_none_iff, posFilter_eq_nil_iff]
    intro x hx
    rw [take45_backOnlyScan, List.mem_replicate] at hx
    rw [hx.2]
    norm_num

/-- C3 (amended): `findObj360` fails exactly when the array has no
strictly positive entry, and on success returns an index/value pair whose
value is positive, sits at that index, and is minimal among the strictly
positive entries; `findObjFront`, however, fails as soon as either
searched slice — `array[0:45]` or `array[315:360]` — has no strictly
positive entry (so it can fail although the searched union contains one),
and on success returns a pair from the forward cone whose value is minimal
among the strictly positive entries of the whole searched union. -/
theorem findObj_search_spec (l : List ℚ) :
    (findObj360 l = none ↔ ∀ x ∈ l, ¬ 0 < x) ∧
    (∀ i v, findObj360 l = some (i, v) →
      0 < v ∧ ∃ hi : i < l.length, l.get ⟨i, hi⟩ = v ∧
        ∀ j (hj : j < l.length), 0 < l.get ⟨j, hj⟩ → v ≤ l.get ⟨j, hj⟩) ∧
    (findObjFront l = none ↔
      ((∀ x ∈ l.take 45, ¬ 0 < x) ∨ (∀ x ∈ (l.drop 315).take 45, ¬ 0 < x))) ∧
    (∀ i v, findObjFront l = some (i, v) →
      0 < v ∧ frontRange i ∧ ∃ hi : i < l.length, l.get ⟨i, hi⟩ = v ∧
        ∀ j (hj : j < l.length), frontRange j → 0 < l.get ⟨j, hj⟩ →
          v ≤ l.get ⟨j, hj⟩) := by
  refine ⟨?_, ?_, ?_, ?_⟩
  · constructor
    · intro h x hx hpos
      have hmem : x ∈ posFilter l := (mem_posFilter l x).2 ⟨hx, hpos⟩
      have hne : posFilter l ≠ [] := by
        intro hnil
        rw [hnil] at hmem
        cases hmem
      obtain ⟨t, ht⟩ := pyMin_isSome_of_ne_nil _ hne
      rw [findObj360_some_of l t ht] at h
      cases h
    · intro hall
      apply findObj360_none_of
      rw [pyMin_eq_none_iff, posFilter_eq_nil_iff]
      exact hall
  · intro i v h
    cases hm : pyMin (posFilter l) with
    | none => rw [findObj360_none_of l hm] at h; cases h
    | some t =>
      rw [findObj360_some_of l t hm] at h
      simp only [Option.some.injEq, Prod.mk.injEq] at h
      obtain ⟨hidx, hval⟩ := h
      subst hval
      subst hidx
      have htm := pyMin_mem _ _ hm
      rw [mem_posFilter] at htm
      obtain ⟨htl, htpos⟩ := htm
      have hlen := pyIndex_lt_length t l htl
      refine ⟨htpos, hlen, pyIndex_get t l htl hlen, ?_⟩
      intro j hj hpos
      exact pyMin_le _ _ hm _ ((mem_posFilter _ _).2 ⟨List.get_mem l j hj, hpos⟩)
  · cases h1 : pyMin (posFilter (l.take 45)) with
    | none =>
      constructor
      · intro _
        left
        exact (posFilter_eq_nil_iff _).1 ((pyMin_eq_none_iff _).1 h1)
      · intro _
        exact findObjFront_none_left l h1
    | some t =>
      cases h2 : pyMin (posFilter ((l.drop 315).take 45)) with
      | none =>
        constructor
        · intro _
          right
          exact (posFilter_eq_nil_iff _).1 ((pyMin_eq_none_iff _).1 h2)
        · intro _
          exact findObjFront_none_right l h2
      | some t2 =>
        constructor
        · intro hc
          rw [findObjFront_some_some l t t2 h1 h2] at hc
          by_cases hle : t ≤ t2
          · rw [if_pos hle] at hc; cases hc
          · rw [if_neg hle] at hc; cases hc
        · rintro (hall | hall)
          · have hmem := pyMin_mem _ _ h1
            rw [mem_posFilter] at hmem
            exact absurd hmem.2 (hall _ hmem.1)
          · have hmem := pyMin_mem _ _ h2
            rw [mem_posFilter] at hmem
            exact absurd hmem.2 (hall _ hmem.1)
  · intro i v h
    cases h1 : pyMin (posFilter (l.take 45)) with
    | none => rw [findObjFront_none_left l h1] at h; cases h
    | some t =>
      cases h2 : pyMin (posFilter ((l.drop 315).take 45)) with
      | none => rw [findObjFront_none_right l h2] at h; cases h
      | some t2 =>
        rw [findObjFront_some_some l t t2 h1 h2] at h
        have hmem1 := pyMin_mem _ _ h1
        rw [mem_posFilter] at hmem1
        have hmem2 := pyMin_mem _ _ h2
        rw [mem_posFilter] at hmem2
        by_cases hle : t ≤ t2
        · rw [if_pos hle] at h
          simp only [Option.some.injEq, Prod.mk.injEq] at h
          obtain ⟨hidx, hval⟩ := h
          subst hval
          subst hidx
          have hkl : pyIndex t (l.take 45) < (l.take 45).length :=
            pyIndex_lt_length t _ hmem1.1
          have hk45 : pyIndex t (l.take 45) < 45 := by
            rw [List.length_take] at hkl
            omega
          have hkl2 : pyIndex t (l.take 45) < l.length := by
            rw [List.length_take] at hkl
            omega
          refine ⟨hmem1.2, Or.inl hk45, hkl2, ?_, ?_⟩
          · rw [← get_take_eq l 45 _ hkl2 hkl]
            exact pyIndex_get t _ hmem1.1 hkl
          · intro j hj hfr hpos
            rcases hfr with hj45 | ⟨hj315, hj360⟩
            · exact pyMin_le _ _ h1 _
                ((mem_posFilter _ _).2 ⟨mem_take_of l 45 j hj hj45, hpos⟩)
            · exact le_trans hle (pyMin_le _ _ h2 _
                ((mem_posFilter _ _).2 ⟨mem_drop_take_of l j hj hj315 hj360, hpos⟩))
        · rw [if_neg hle] at h
          simp only [Option.some.injEq, Prod.mk.injEq] at h
          obtain ⟨hidx, hval⟩ := h
          subst hval
          subst hidx
          have hkl : pyIndex t2 ((l.drop 315).take 45) < ((l.drop 315).take 45).length :=
            pyIndex_lt_length t2 _ hmem2.1
          have hk45 : pyIndex t2 ((l.drop 315).take 45) < 45 := by
            rw [List.length_take] at hkl
            omega
          have hklen : 315 + pyIndex t2 ((l.drop 315).take 45) < l.length := by
            rw [List.length_take, List.length_drop] at hkl
            omega
          have hilen : pyIndex t2 ((l.drop 315).take 45) + 315 < l.length := by omega
          refine ⟨hmem2.2, Or.inr ⟨by omega, by omega⟩, hilen, ?_, ?_⟩
          · have hg := get_drop_take_eq l (pyIndex t2 ((l.drop 315).take 45)) hkl hklen
            have hpg := pyIndex_get t2 _ hmem2.1 hkl
            rw [hg] at hpg
            have hfin : (⟨pyIndex t2 ((l.drop 315).take 45) + 315, hilen⟩ : Fin l.length) =
                ⟨315 + pyIndex t2 ((l.drop 315).take 45), hklen⟩ :=
              Fin.ext (by
                show pyIndex t2 ((l.drop 315).take 45) + 315 =
                  315 + pyIndex t2 ((l.drop 315).take 45)
                omega)
            rw [hfin]
            exact hpg
          · intro j hj hfr hpos
            rcases hfr with hj45 | ⟨hj315, hj360⟩
            · have hmin := pyMin_le _ _ h1 _
                ((mem_posFilter _ _).2 ⟨mem_take_of l 45 j hj hj45, hpos⟩)
              exact le_trans (le_of_lt (not_le.1 hle)) hmin
            · exact pyMin_le _ _ h2 _
                ((mem_posFilter _ _).2 ⟨mem_drop_take_of l j hj hj315 hj360, hpos⟩)

/-- C3 (witness): the amended search specification instantiated on the
all-ones scan. -/
theorem findObj_search_spec_witness :
    (findObj360 onesScan = none ↔ ∀ x ∈ onesScan, ¬ 0 < x) ∧
    (∀ i v, findObj360 onesScan = some (i, v) →
      0 < v ∧ ∃ hi : i < onesScan.length, onesScan.get ⟨i, hi⟩ = v ∧
        ∀ j (hj : j < onesScan.length), 0 < onesScan.get ⟨j, hj⟩ →
          v ≤ onesScan.get ⟨j, hj⟩) ∧
    (findObjFront onesScan = none ↔
      ((∀ x ∈ onesScan.take 45, ¬ 0 < x) ∨
        (∀ x ∈ (onesScan.drop 315).take 45, ¬ 0 < x))) ∧
    (∀ i v, findObjFront onesScan = some (i, v) →
      0 < v ∧ frontRange i ∧ ∃ hi : i < onesScan.length,
        onesScan.get ⟨i, hi⟩ = v ∧
        ∀ j (hj : j < onesScan.length), frontRange j →
          0 < onesScan.get ⟨j, hj⟩ → v ≤ onesScan.get ⟨j, hj⟩) :=
  findObj_search_spec onesScan

/-! Claim C9: the scan handler is not atomic on the error path. -/

/-- C9: when the range array has a strictly positive entry somewhere but
none in the front slice `array[0:45]`, the scan handler updates the
full-sweep bearing and then aborts in the forward-cone search, leaving the
forward-cone bearing, forward-cone distance, stored front pair and the
`ready` flag unchanged. -/
theorem update_scan_error_path (pi : ℚ) (s : TurtlebotState) (l : List ℚ)
    (hpos : ∃ x ∈ l, 0 < x) (hfront : ∀ x ∈ l.take 45, ¬ 0 < x) :
    (TurtlebotState.update_scan pi s l).2 = false ∧
    (∃ i v, findObj360 l = some (i, v) ∧
      (TurtlebotState.update_scan pi s l).1.closest_obj_ang =
        degrees_to_radians pi i) ∧
    (TurtlebotState.update_scan pi s l).1.closest_obj_front_ang =
      s.closest_obj_front_ang ∧
    (TurtlebotState.update_scan pi s l).1.closest_obj_front_dist =
      s.closest_obj_front_dist ∧
    (TurtlebotState.update_scan pi s l).1.closest_obj_front =
      s.closest_obj_front ∧
    (TurtlebotState.update_scan pi s l).1.ready = s.ready := by
  obtain ⟨x, hx, hxpos⟩ := hpos
  have hne : posFilter l ≠ [] := by
    intro hnil
    exact (posFilter_eq_nil_iff l).1 hnil x hx hxpos
  obtain ⟨t, ht⟩ := pyMin_isSome_of_ne_nil _ hne
  have h360 : findObj360 l = some (pyIndex t l, t) := findObj360_some_of l t ht
  have hfrontnone : findObjFront l = none := by
    apply findObjFront_none_left
    rw [pyMin_eq_none_iff, posFilter_eq_nil_iff]
    exact hfront
  have hupd : TurtlebotState.update_scan pi s l =
      ({ s with closest_obj_ang := degrees_to_radians pi (pyIndex t l) }, false) := by
    unfold TurtlebotState.update_scan
    rw [h360, hfrontnone]
  rw [hupd]
  exact ⟨rfl, ⟨pyIndex t l, t, h360, rfl⟩, rfl, rfl, rfl, rfl⟩

/-- C9 (witness): the error path taken on the scan whose only positive
return is at bearing 315. -/
theorem update_scan_error_path_witness :
    (TurtlebotState.update_scan 3 initState backOnlyScan).2 = false ∧
    (∃ i v, findObj360 backOnlyScan = some (i, v) ∧
      (TurtlebotState.update_scan 3 initState backOnlyScan).1.closest_obj_ang =
        degrees_to_radians 3 i) ∧
    (TurtlebotState.update_scan 3 initState backOnlyScan).1.closest_obj_front_ang =
      initState.closest_obj_front_ang ∧
    (TurtlebotState.update_scan 3 initState backOnlyScan).1.closest_obj_front_dist =
      initState.closest_obj_front_dist ∧
    (TurtlebotState.update_scan 3 initState backOnlyScan).1.closest_obj_front =
      initState.closest_obj_front ∧
    (TurtlebotState.update_scan 3 initState backOnlyScan).1.ready =
      initState.ready :=
  update_scan_error_path 3 initState backOnlyScan
    ⟨1, by
        unfold backOnlyScan
        exact List.mem_append_right _ (List.mem_cons_self 1 _),
      by norm_num⟩
    (by
      intro x hx
      rw [take45_backOnlyScan, List.mem_replicate] at hx
      rw [hx.2]
      norm_num)

/-! Claim C10: tie-breaking and first-occurrence behavior of
`findObjFront`. -/

/-- C10: when the two slice minima are equal, `findObjFront` answers from
the front slice `[0,45)`; and in whichever slice is chosen the returned
index is the first index of that slice attaining the minimum value. -/
theorem findObjFront_tie_and_first_index (l : List ℚ) (i : ℕ) (v : ℚ)
    (h : findObjFront l = some (i, v)) :
    (∀ m, pyMin (posFilter (l.take 45)) = some m →
      pyMin (posFilter ((l.drop 315).take 45)) = some m → i < 45) ∧
    (i < 45 → ∃ hi : i < l.length, l.get ⟨i, hi⟩ = v ∧
      ∀ j (hj : j < l.length), j < i → l.get ⟨j, hj⟩ ≠ v) ∧
    (45 ≤ i → 315 ≤ i ∧ i < 360 ∧ ∃ hi : i < l.length, l.get ⟨i, hi⟩ = v ∧
      ∀ j (hj : j < l.length), 315 ≤ j → j < i → l.get ⟨j, hj⟩ ≠ v) := by
  cases h1 : pyMin (posFilter (l.take 45)) with
  | none => rw [findObjFront_none_left l h1] at h; cases h
  | some t =>
    cases h2 : pyMin (posFilter ((l.drop 315).take 45)) with
    | none => rw [findObjFront_none_right l h2] at h; cases h
    | some t2 =>
      rw [findObjFront_some_some l t t2 h1 h2] at h
      have hmem1 := pyMin_mem _ _ h1
      rw [mem_posFilter] at hmem1
      have hmem2 := pyMin_mem _ _ h2
      rw [mem_posFilter] at hmem2
      by_cases hle : t ≤ t2
      · rw [if_pos hle] at h
        simp only [Option.some.injEq, Prod.mk.injEq] at h
        obtain ⟨hidx, hval⟩ := h
        subst hval
        subst hidx
        have hkl : pyIndex t (l.take 45) < (l.take 45).length :=
          pyIndex_lt_length t _ hmem1.1
        have hk45 : pyIndex t (l.take 45) < 45 := by
          rw [List.length_take] at hkl
          omega
        have hkl2 : pyIndex t (l.take 45) < l.length := by
          rw [List.length_take] at hkl
          omega
        refine ⟨fun _ _ _ => hk45, fun _ => ⟨hkl2, ?_, ?_⟩,
          fun h45 => absurd hk45 (not_lt.2 h45)⟩
        · rw [← get_take_eq l 45 _ hkl2 hkl]
          exact pyIndex_get t _ hmem1.1 hkl
        · intro j hj hji hjv
          have hjtake : j < (l.take 45).length := by
            rw [List.length_take]
            omega
          have hne := pyIndex_min t (l.take 45) j hjtake hji
          rw [get_take_eq l 45 j hj hjtake] at hne
          exact hne hjv
      · rw [if_neg hle] at h
        simp only [Option.some.injEq, Prod.mk.injEq] at h
        obtain ⟨hidx, hval⟩ := h
        subst hval
        subst hidx
        have hkl : pyIndex t2 ((l.drop 315).take 45) < ((l.drop 315).take 45).length :=
          pyIndex_lt_length t2 _ hmem2.1
        have hk45 : pyIndex t2 ((l.drop 315).take 45) < 45 := by
          rw [List.length_take] at hkl
          omega
        have hklen : 315 + pyIndex t2 ((l.drop 315).take 45) < l.length := by
          rw [List.length_take, List.length_drop] at hkl
          omega
        have hilen : pyIndex t2 ((l.drop 315).take 45) + 315 < l.length := by omega
        refine ⟨?_, fun hlt => absurd hlt (by omega), fun _ => ⟨by omega, by omega, hilen, ?_, ?_⟩⟩
        · intro m hm1 hm2
          have e1 : t = m := by injection hm1
          have e2 : t2 = m := by injection hm2
          have het : t = t2 := by rw [e1, e2]
          exact absurd (le_of_eq het) hle
        · have hg := get_drop_take_eq l (pyIndex t2 ((l.drop 315).take 45)) hkl hklen
          have hpg := pyIndex_get t2 _ hmem2.1 hkl
          rw [hg] at hpg
          have hfin : (⟨pyIndex t2 ((l.drop 315).take 45) + 315, hilen⟩ : Fin l.length) =
              ⟨315 + pyIndex t2 ((l.drop 315).take 45), hklen⟩ :=
            Fin.ext (by
              show pyIndex t2 ((l.drop 315).take 45) + 315 =
                315 + pyIndex t2 ((l.drop 315).take 45)
              omega)
          rw [hfin]
          exact hpg
        · intro j hj hj315 hji hjv
          obtain ⟨k, rfl⟩ : ∃ k, j = 315 + k := ⟨j - 315, by omega⟩
          have hktake : k < ((l.drop 315).take 45).length := by
            rw [List.length_take, List.length_drop]
            omega
          have hkpy : k < pyIndex t2 ((l.drop 315).take 45) := by omega
          have hne := pyIndex_min t2 ((l.drop 315).take 45) k hktake hkpy
          rw [get_drop_take_eq l k hktake hj] at hne
          exact hne hjv

/-- C10 (witness): the tie/first-occurrence property instantiated on the
all-ones scan, whose search returns index 0 with value 1. -/
theorem findObjFront_tie_and_first_index_witness :
    (∀ m, pyMin (posFilter (onesScan.take 45)) = some m →
      pyMin (posFilter ((onesScan.drop 315).take 45)) = some m → 0 < 45) ∧
    ((0 : ℕ) < 45 → ∃ hi : (0 : ℕ) < onesScan.length,
      onesScan.get ⟨0, hi⟩ = 1 ∧
      ∀ j (hj : j < onesScan.length), j < 0 → onesScan.get ⟨j, hj⟩ ≠ 1) ∧
    (45 ≤ (0 : ℕ) → 315 ≤ (0 : ℕ) ∧ (0 : ℕ) < 360 ∧
      ∃ hi : (0 : ℕ) < onesScan.length, onesScan.get ⟨0, hi⟩ = 1 ∧
      ∀ j (hj : j < onesScan.length), 315 ≤ j → j < 0 →
        onesScan.get ⟨j, hj⟩ ≠ 1) :=
  findObjFront_tie_and_first_index onesScan 0 1 findObjFront_onesScan

/-- C2 (witness): a pose update alone, and a completed scan update alone,
each leave `ready` true on concrete inputs. -/
theorem ready_first_update_witness :
    (initState.update_odom { yaw := 0, x := 0, y := 0 }).ready = true ∧
    ({ initState with
        closest_obj_ang := degrees_to_radians 3 0,
        closest_obj_front := (0, 1),
        closest_obj_front_ang := degrees_to_radians 3 0,
        closest_obj_front_dist := 1,
        ready := true } : TurtlebotState).ready = true :=
  ⟨ready_first_update.2.1 initState { yaw := 0, x := 0, y := 0 },
   ready_first_update.2.2 3 initState onesScan _ (update_scan_onesScan 3 initState)⟩
